import Mathlib

/-
Shallow embedding of the storage-plus repository (Rust) for verification.

The embedding covers:
  * the `devices` table and its repository operations
    (src/repo/device_repo.rs, src/schema.rs);
  * the library mounter's reconciliation pass and add/remove handlers
    (src/mounter.rs);
  * the legacy standalone mounter binary (src/bin/dev-mounter.rs),
    which has its own upsert and reconciliation logic;
  * the device selection cache (src/server.rs, DeviceUuidCache);
  * the storage placement layer (src/storage.rs).

External effects (blkid probes, /proc/mounts, the mount(8)/umount(8)
commands) are modelled by an explicit environment record `Env`; the
SQLite store is modelled as a list of rows; the filesystem used by the
placement layer is modelled as a record of directories and an
association list from paths to byte lists.
-/

namespace StoragePlus

/-- Device row: mirrors one row of the `devices` table
(`src/schema.rs`): id, devnode, uuid (nullable), removed, joined,
mount_success (SQLite integers used as 0/1 flags), mount_path
(nullable) and last_seen (epoch seconds). -/
structure Device where
  id : Int
  devnode : String
  uuid : Option String
  removed : Int
  joined : Int
  mount_success : Int
  mount_path : Option String
  last_seen : Int
deriving Repr, DecidableEq

/-- The device store: the `devices` table as a list of rows. -/
abbrev Store := List Device

/-- Next AUTOINCREMENT id for an insert. -/
def nextId (s : Store) : Int :=
  (s.map (·.id)).foldr max 0 + 1

namespace DeviceRepo

/-- Row subset loaded by `list_joined_active`
(`DeviceMountRow` in src/repo/device_repo.rs). -/
structure DeviceMountRow where
  devnode : String
  uuid : Option String
  mount_success : Int
  mount_path : Option String
deriving Repr, DecidableEq

/-- The row update applied by the UPDATE arm of
`DeviceRepoImpl::upsert_device`: set devnode, clear removed, refresh
last_seen. -/
def upsertHit (devnode : String) (ts : Int) (uuid : String) (r : Device) : Device :=
  if r.uuid == some uuid then
    { r with devnode := devnode, removed := 0, last_seen := ts }
  else r

/-- The fresh row built by the INSERT arm of
`DeviceRepoImpl::upsert_device`. -/
def freshRow (s : Store) (devnode uuid : String) (ts : Int) : Device :=
  { id := nextId s, devnode := devnode, uuid := some uuid, removed := 0,
    joined := 0, mount_success := 0, mount_path := none, last_seen := ts }

/-- Embeds `DeviceRepoImpl::upsert_device` (src/repo/device_repo.rs
lines 30-56): inside one transaction, UPDATE all rows whose uuid equals
the given uuid (set devnode, removed=0, last_seen=ts); if no row was
updated, INSERT a new row with removed=0, joined=0, mount_success=0,
mount_path=NULL, last_seen=ts. -/
def upsert_device (s : Store) (devnode uuid : String) (ts : Int) : Store :=
  if s.any (fun r => r.uuid == some uuid) then
    s.map (upsertHit devnode ts uuid)
  else
    s ++ [freshRow s devnode uuid ts]

/-- Embeds `DeviceRepoImpl::mark_removed` (src/repo/device_repo.rs
lines 58-68): UPDATE rows matching devnode, setting removed=1,
mount_success=0, last_seen=ts. -/
def mark_removed (s : Store) (devnode : String) (ts : Int) : Store :=
  s.map (fun r =>
    if r.devnode == devnode then
      { r with removed := 1, mount_success := 0, last_seen := ts }
    else r)

/-- Embeds `DeviceRepoImpl::list_joined_active` (src/repo/device_repo.rs
lines 70-83): SELECT devnode, uuid, mount_success, mount_path FROM
devices WHERE removed=0 AND joined=1. -/
def list_joined_active (s : Store) : List DeviceMountRow :=
  (s.filter (fun r => r.removed == 0 && r.joined == 1)).map
    (fun r => ⟨r.devnode, r.uuid, r.mount_success, r.mount_path⟩)

/-- Embeds `DeviceRepoImpl::update_mount_result` (src/repo/device_repo.rs
lines 100-113): UPDATE rows matching devnode AND uuid, setting
mount_success=1 and mount_path; note it does not touch last_seen. -/
def update_mount_result (s : Store) (devnode mount_path uuid : String) : Store :=
  s.map (fun r =>
    if r.devnode == devnode && r.uuid == some uuid then
      { r with mount_success := 1, mount_path := some mount_path }
    else r)

/-- Embeds `DeviceRepoImpl::mark_mounted_existing`, which simply
delegates to `update_mount_result`. -/
def mark_mounted_existing (s : Store) (devnode mount_path uuid : String) : Store :=
  update_mount_result s devnode mount_path uuid

end DeviceRepo

/-- Output of an external command: exit status and captured stdout
(the `std::process::Output` fields the code reads). -/
structure CmdOut where
  success : Bool
  stdout : String
deriving Repr, DecidableEq

/-- Environment abstracting the OS for one reconciliation pass:
the result of `blkid -s UUID -o value <devnode>` (`none` models a spawn
failure, i.e. the `.ok()?` escape), the content of /proc/mounts
(`none` models a read error), whether `mount <devnode> <target>`
succeeds, and the first free `diskN` fallback directory scanned by
`pick_mount_path` when no uuid is available. -/
structure Env where
  blkid_uuid : String → Option CmdOut
  mounts : Option String
  mount_ok : String → String → Bool
  free_disk : String

/-- Character-level emptiness test (Rust `str::is_empty`), defined over
the character list so it evaluates by kernel reduction. -/
def strIsEmpty (s : String) : Bool :=
  s.data.isEmpty

/-- Character containment (Rust `str::contains(char)`), defined over
the character list. -/
def strContains (s : String) (c : Char) : Bool :=
  s.data.contains c

/-- Prefix test (Rust `str::starts_with`): `strStartsWith s pre` holds
when s begins with pre. -/
def strStartsWith (s pre : String) : Bool :=
  pre.data.isPrefixOf s.data

/-- Splits a character list at every occurrence of the separator. -/
def splitOnChar (c : Char) : List Char → List (List Char)
  | [] => [[]]
  | x :: xs =>
    let r := splitOnChar c xs
    if x == c then [] :: r
    else
      match r with
      | [] => [[x]]
      | h :: t => (x :: h) :: t

/-- Splits a string the way Rust's `str::lines` does: split on the
newline character, drop the optional final empty piece produced by a
trailing newline, and strip one trailing carriage return from each
line. -/
def rustLines (s : String) : List String :=
  let parts := splitOnChar '\n' s.data
  let parts := if parts.getLast? == some [] then parts.dropLast else parts
  parts.map (fun l => (if l.getLast? == some '\r' then l.dropLast else l).asString)

/-- Embeds `fetch_uuid` (src/mounter.rs lines 44-60 and the identical
function in src/bin/dev-mounter.rs): run blkid; on spawn failure or a
failing exit status return none; otherwise trim the stdout and return
it only when non-empty. -/
def fetch_uuid (env : Env) (devnode : String) : Option String :=
  match env.blkid_uuid devnode with
  | none => none
  | some out =>
    if out.success then
      let s := out.stdout.trim
      if !strIsEmpty s then some s else none
    else none

/-- Embeds the devnode-vs-mount-table check shared by
`Mounter::is_mounted` (src/mounter.rs lines 62-68) and `is_mounted`
(src/bin/dev-mounter.rs lines 115-120): some line of the table starts
with the devnode string. -/
def is_mounted_in (mounts devnode : String) : Bool :=
  (rustLines mounts).any (fun l => strStartsWith l devnode)

/-- The full `is_mounted` including the read of /proc/mounts: a read
failure counts as not mounted. -/
def is_mounted (env : Env) (devnode : String) : Bool :=
  match env.mounts with
  | some mounts => is_mounted_in mounts devnode
  | none => false

/-- Embeds `pick_mount_path` (src/mounter.rs lines 70-83,
src/bin/dev-mounter.rs lines 147-161): with a uuid the target is
`storage_root/uuid`; without one the first free `diskN` directory
under the root is used (supplied by the environment, since it depends
on the live filesystem). -/
def pick_mount_path (env : Env) (storage_root : String) (uuid : Option String) : String :=
  match uuid with
  | some u => storage_root ++ "/" ++ u
  | none => env.free_disk

namespace Mounter

/-- Embeds `Mounter::upsert_device` (src/mounter.rs lines 94-99): on an
add event, probe the uuid; if the probe resolves one, call the
repository upsert; otherwise return without touching the store. -/
def upsert_device (env : Env) (s : Store) (devnode : String) (ts : Int) : Store :=
  match fetch_uuid env devnode with
  | some uuid => DeviceRepo.upsert_device s devnode uuid ts
  | none => s

/-- One iteration of the row loop of `Mounter::process_pending`
(src/mounter.rs lines 112-157), acting on the accumulated store and
the list of (devnode, target) pairs on which the mount operation has
been invoked:
skip rows without a non-empty uuid; skip rows already mounted in
steady state; reuse the recorded mount_path or derive
`storage_root/uuid`; if the OS already shows the devnode mounted, just
persist the result; otherwise invoke mount and persist on success. -/
def processRow (env : Env) (storage_root : String)
    (acc : Store × List (String × String)) (row : DeviceRepo.DeviceMountRow) :
    Store × List (String × String) :=
  match row.uuid with
  | none => acc
  | some u =>
    if strIsEmpty u then acc
    else if row.mount_success == 1 && is_mounted env row.devnode then acc
    else
      let target := match row.mount_path with
        | some mp => mp
        | none => storage_root ++ "/" ++ u
      if is_mounted env row.devnode then
        (DeviceRepo.mark_mounted_existing acc.1 row.devnode target u, acc.2)
      else if env.mount_ok row.devnode target then
        (DeviceRepo.update_mount_result acc.1 row.devnode target u,
         acc.2 ++ [(row.devnode, target)])
      else (acc.1, acc.2 ++ [(row.devnode, target)])

/-- Embeds `Mounter::process_pending`: load the joined+active rows once,
then run the row loop; returns the final store together with every
(devnode, target) on which the mount operation was invoked. -/
def process_pending (env : Env) (storage_root : String) (s : Store) :
    Store × List (String × String) :=
  (DeviceRepo.list_joined_active s).foldl (processRow env storage_root) (s, [])

end Mounter

namespace DevMounter

/-- Embeds `upsert_add` of the legacy binary (src/bin/dev-mounter.rs
lines 71-78): probe the uuid (possibly obtaining none) and run
INSERT .. ON CONFLICT(devnode) DO UPDATE SET removed=0,
last_seen=excluded.last_seen, uuid=COALESCE(excluded.uuid, devices.uuid).
The conflict target is the devnode (that binary's schema declares
devnode UNIQUE), and the insert happens even when no uuid resolved. -/
def upsert_add (env : Env) (s : Store) (devnode : String) (ts : Int) : Store :=
  let uuid := fetch_uuid env devnode
  if s.any (fun r => r.devnode == devnode) then
    s.map (fun r =>
      if r.devnode == devnode then
        { r with removed := 0, last_seen := ts,
                 uuid := match uuid with | some u => some u | none => r.uuid }
      else r)
  else
    s ++ [{ id := nextId s, devnode := devnode, uuid := uuid, removed := 0,
            joined := 0, mount_success := 0, mount_path := none, last_seen := ts }]

/-- The UPDATE run by dev-mounter's reconciliation after a (discovered
or fresh) successful mount: SET mount_success=1, mount_path=target,
uuid=COALESCE(uuid_final, uuid) WHERE devnode=?. -/
def updateMountRow (s : Store) (devnode target : String) (uuid_final : Option String) : Store :=
  s.map (fun r =>
    if r.devnode == devnode then
      { r with mount_success := 1, mount_path := some target,
               uuid := match uuid_final with | some u => some u | none => r.uuid }
    else r)

/-- The row set scanned by dev-mounter's reconciliation
(src/bin/dev-mounter.rs line 171): SELECT .. FROM devices WHERE
removed=0 — with no condition on joined. -/
def list_active (s : Store) : List DeviceRepo.DeviceMountRow :=
  (s.filter (fun r => r.removed == 0)).map
    (fun r => ⟨r.devnode, r.uuid, r.mount_success, r.mount_path⟩)

/-- One iteration of the row loop of dev-mounter's `process_pending`
(src/bin/dev-mounter.rs lines 180-212): skip steady-state rows; refresh
a missing uuid via blkid; pick the target (recorded path, uuid path, or
diskN fallback); persist if already mounted, else invoke mount and
persist on success. `ensure_filesystem` touches only the block device,
not the store, and is therefore not modelled. -/
def processRow (env : Env) (storage_root : String)
    (acc : Store × List (String × String)) (row : DeviceRepo.DeviceMountRow) :
    Store × List (String × String) :=
  if row.mount_success == 1 && is_mounted env row.devnode then acc
  else
    let uuid_final := match row.uuid with
      | some u => some u
      | none => fetch_uuid env row.devnode
    let target := match row.mount_path with
      | some mp => mp
      | none => pick_mount_path env storage_root uuid_final
    if is_mounted env row.devnode then
      (updateMountRow acc.1 row.devnode target uuid_final, acc.2)
    else if env.mount_ok row.devnode target then
      (updateMountRow acc.1 row.devnode target uuid_final,
       acc.2 ++ [(row.devnode, target)])
    else (acc.1, acc.2 ++ [(row.devnode, target)])

/-- Embeds dev-mounter's `process_pending` (src/bin/dev-mounter.rs
lines 169-214): scan every non-removed row — joined is not consulted —
and run the row loop. -/
def process_pending (env : Env) (storage_root : String) (s : Store) :
    Store × List (String × String) :=
  (list_active s).foldl (processRow env storage_root) (s, [])

end DevMounter

namespace Server

/-- Cache snapshot: the cached uuid list together with the instant it
was written (`Option<(Vec<String>, Instant)>` in DeviceUuidCache),
instants modelled as natural timestamps. -/
abbrev CacheState := Option (List String × Nat)

/-- The pseudo-random pick `uuids[nanos % uuids.len()]`; the default is
never reached because every call site has checked non-emptiness. -/
def pickUuid (uuids : List String) (nanos : Nat) : String :=
  uuids.getD (nanos % uuids.length) ""

/-- The mount-candidate computation in the refresh arm of
`DeviceUuidCache::get_or_fetch` (src/server.rs lines 64-77): query
`list_joined_active`, keep rows with mount_success=1, and project their
non-null uuids. -/
def refreshCandidates (s : Store) : List String :=
  ((DeviceRepo.list_joined_active s).filter (fun r => r.mount_success == 1)).filterMap
    (fun r => r.uuid)

/-- The fall-through refresh block of `get_or_fetch`: fetch the
candidates, atomically replace the snapshot, then either fail with the
service-unavailable error (empty candidate set) or pick
pseudo-randomly. -/
def refreshPick (now nanos : Nat) (s : Store) : CacheState × Except String String :=
  let candidates := refreshCandidates s
  if candidates.isEmpty then
    (some (candidates, now), .error "no active device uuid")
  else
    (some (candidates, now), .ok (pickUuid candidates nanos))

/-- Embeds `DeviceUuidCache::get_or_fetch` (src/server.rs lines 45-90)
as a function of the cache state, the TTL, the current time, the
sub-second nanosecond value used for the pseudo-random index, and the
store; returns the cache state after the call and either the selected
uuid or the service-unavailable error string. A snapshot younger than
the TTL is served from cache — including the case where its entry list
is empty, which returns the error without refreshing; otherwise the
snapshot is refreshed via `refreshPick`. -/
def get_or_fetch (cache : CacheState) (ttl now nanos : Nat) (s : Store) :
    CacheState × Except String String :=
  match cache with
  | some (uuids, ts) =>
    if now - ts < ttl then
      if uuids.isEmpty then (cache, .error "no active device uuid")
      else (cache, .ok (pickUuid uuids nanos))
    else refreshPick now nanos s
  | none => refreshPick now nanos s

end Server

namespace Storage

/-- Whether a segment fails `StorageImpl::ensure_segment`
(src/storage.rs lines 46-61): empty, containing a separator character
(slash or backslash), or equal to the dot or dot-dot components. -/
def badSegment (seg : String) : Prop :=
  seg = "" ∨ strContains seg '/' = true ∨ strContains seg '\\' = true ∨
    seg = "." ∨ seg = ".."

instance (seg : String) : Decidable (badSegment seg) := by
  unfold badSegment; infer_instance

/-- Embeds `StorageImpl::ensure_segment`: the bail chain of the source,
in source order. -/
def ensure_segment (segment : String) : Except String Unit :=
  if strIsEmpty segment then
    .error "segment must not be empty"
  else if strContains segment '/' || strContains segment '\\' then
    .error "segment must be a single path segment without separators"
  else if segment == "." || segment == ".." then
    .error "segment must not be dot or dot-dot"
  else .ok ()

/-- Embeds `StorageImpl::resolve_path` (src/storage.rs lines 66-70):
validate both segments, then join root/device_uuid/object_key. Path
joining of single segments onto the root is modelled as concatenation
with a slash. -/
def resolve_path (root dev key : String) : Except String String :=
  match ensure_segment dev with
  | .error e => .error e
  | .ok _ =>
    match ensure_segment key with
    | .error e => .error e
    | .ok _ => .ok (root ++ "/" ++ dev ++ "/" ++ key)

/-- Filesystem model for the placement layer: the set of created
directories and an association from absolute paths to file contents
(bytes as naturals). -/
structure FS where
  dirs : List String
  files : List (String × List Nat)
deriving Repr, DecidableEq

/-- Content stored at a path, if any. -/
def FS.look (fs : FS) (p : String) : Option (List Nat) :=
  (fs.files.find? (fun e => e.1 == p)).map (·.2)

/-- Create or truncate the file at a path with the given content. -/
def FS.write (fs : FS) (p : String) (c : List Nat) : FS :=
  { fs with files := (p, c) :: fs.files.filter (fun e => !(e.1 == p)) }

/-- Drop the file at a path. -/
def FS.remove (fs : FS) (p : String) : FS :=
  { fs with files := fs.files.filter (fun e => !(e.1 == p)) }

/-- Atomic rename: move the content at src to dst (no-op when src is
absent, which the happy path never hits). -/
def FS.rename (fs : FS) (src dst : String) : FS :=
  match fs.look src with
  | some c => (fs.remove src).write dst c
  | none => fs

/-- Record a directory as created (`create_dir_all` on the parent). -/
def FS.mkdir (fs : FS) (p : String) : FS :=
  { fs with dirs := p :: fs.dirs }

/-- Append one chunk to an open file, as one `write_all` call does. -/
def FS.appendTo (fs : FS) (p : String) (c : List Nat) : FS :=
  match fs.look p with
  | some old => fs.write p (old ++ c)
  | none => fs.write p c

/-- The temp-file name chosen by write_stream:
`{object_key}.{uuid}.part`, the token standing for the freshly
generated v4 uuid. -/
def tmpName (key token : String) : String :=
  key ++ "." ++ token ++ ".part"

/-- The filesystem right after write_stream's preparation: the parent
directory created, the temp file created empty. -/
def writeStart (fs : FS) (parent tmp : String) : FS :=
  (fs.mkdir parent).write tmp []

/-- The filesystem states write_stream goes through while streaming:
the prepared state followed by the state after each chunk is appended
to the temp file. -/
def writeTrace (fs : FS) (parent tmp : String) (chunks : List (List Nat)) : List FS :=
  chunks.scanl (fun f c => f.appendTo tmp c) (writeStart fs parent tmp)

/-- Embeds `StorageImpl::write_stream` (src/storage.rs lines 72-116) on
the happy path as the trace of filesystem states it produces: resolve
the final path; create the parent directory; create the uniquely named
temp file beside the final path; append the stream chunk by chunk (the
reader yields chunks until EOF, each read adding its byte count to the
running total); finally rename the temp file onto the final path.
Returns every intermediate filesystem state in order, the final path,
and the returned byte total. -/
def write_stream (fs : FS) (root dev key token : String) (chunks : List (List Nat)) :
    Except String (List FS × String × Nat) :=
  match resolve_path root dev key with
  | .error e => .error e
  | .ok finalPath =>
    let parent := root ++ "/" ++ dev
    let tmpPath := parent ++ "/" ++ tmpName key token
    let trace := writeTrace fs parent tmpPath chunks
    let fsFin := (trace.getLastD (writeStart fs parent tmpPath)).rename tmpPath finalPath
    .ok (trace ++ [fsFin], finalPath, (chunks.map (·.length)).sum)

end Storage

/-! Concrete sample data used by witnesses and counterexamples. -/

/-- Environment in which blkid never resolves, nothing is mounted and
every mount command fails. -/
def envNoOs : Env :=
  { blkid_uuid := fun _ => none, mounts := some "", mount_ok := fun _ _ => false,
    free_disk := "/root/disk1" }

/-- A joined, active, not-yet-mounted device row. -/
def rowJoined : Device :=
  { id := 1, devnode := "/dev/sdb", uuid := some "U1", removed := 0, joined := 1,
    mount_success := 0, mount_path := none, last_seen := 5 }

/-- The same row before admission: joined is still 0. -/
def rowUnjoined : Device := { rowJoined with joined := 0 }

/-- A joined, active, mounted device row (a valid selection candidate). -/
def rowMounted : Device :=
  { rowJoined with mount_success := 1, mount_path := some "/root/U1" }

/-! Helper lemmas. -/

theorem list_map_eq_self {α : Type} (l : List α) (f : α → α)
    (h : ∀ x ∈ l, f x = x) : l.map f = l := by
  induction l with
  | nil => rfl
  | cons a t ih =>
    simp only [List.map_cons, h a (List.mem_cons_self a t)]
    rw [ih (fun x hx => h x (List.mem_cons_of_mem a hx))]

theorem list_map_congr {α β : Type} (l : List α) (f g : α → β)
    (h : ∀ x ∈ l, f x = g x) : l.map f = l.map g := by
  induction l with
  | nil => rfl
  | cons a t ih =>
    simp only [List.map_cons, h a (List.mem_cons_self a t)]
    rw [ih (fun x hx => h x (List.mem_cons_of_mem a hx))]

theorem list_get_congr {α : Type} {l l2 : List α} (h : l = l2) (i : Nat)
    (hx : i < l.length) : l.get ⟨i, hx⟩ = l2.get ⟨i, h ▸ hx⟩ := by
  subst h
  rfl

theorem getLastD_mem_of_ne_nil {α : Type} (l : List α) (d : α) (h : l ≠ []) :
    l.getLastD d ∈ l := by
  induction l generalizing d with
  | nil => exact absurd rfl h
  | cons a t ih =>
    cases t with
    | nil => simp [List.getLastD]
    | cons b u =>
      rw [List.getLastD_cons]
      exact List.mem_cons_of_mem a (ih b (by simp))

/-! C10 — the devnode-prefix mount check. -/

/-- The device field of one /proc/mounts line: the text before the
first space. Used to state that a devnode is not itself the source of
any mount entry. -/
def mountLineDevice (l : String) : String :=
  ((splitOnChar ' ' l.data).headD []).asString

/-- Claim C10: for every devnode d and every mount-table content, the
is_mounted check reports d as mounted if and only if some line of the
table begins with d as a string prefix; hence a devnode that is a
proper prefix of another device's entry (such as /dev/sd1 when
/dev/sd10 is mounted) is reported as mounted even though no line's
device field is d itself. -/
theorem claim_C10 :
    (∀ mounts devnode, is_mounted_in mounts devnode = true ↔
        ∃ l ∈ rustLines mounts, strStartsWith l devnode = true) ∧
    is_mounted_in "/dev/sd10 /mnt/disk ext4 rw 0 0" "/dev/sd1" = true ∧
    (∀ l ∈ rustLines "/dev/sd10 /mnt/disk ext4 rw 0 0",
        mountLineDevice l ≠ "/dev/sd1") := by
  refine ⟨?_, by decide, by decide⟩
  intro mounts devnode
  simp [is_mounted_in, List.any_eq_true]

/-- Witness for C10: the instance where /dev/sd1 is matched against a
table mounting /dev/sd10, obtained from the characterization. -/
theorem claim_C10_witness :
    is_mounted_in "/dev/sd10 /mnt/disk ext4 rw 0 0" "/dev/sd1" = true ∧
    mountLineDevice "/dev/sd10 /mnt/disk ext4 rw 0 0" ≠ "/dev/sd1" := by
  refine ⟨(claim_C10.1 "/dev/sd10 /mnt/disk ext4 rw 0 0" "/dev/sd1").mpr ?_, ?_⟩
  · exact ⟨"/dev/sd10 /mnt/disk ext4 rw 0 0", by decide, by decide⟩
  · exact claim_C10.2.2 "/dev/sd10 /mnt/disk ext4 rw 0 0" (by decide)

/-! C7 — path-segment validation. -/

theorem strIsEmpty_iff (s : String) : strIsEmpty s = true ↔ s = "" := by
  unfold strIsEmpty
  rw [List.isEmpty_iff]
  constructor
  · intro h
    cases s with
    | mk data => simp_all
  · intro h
    subst h
    rfl

theorem ensure_segment_error_iff (seg : String) :
    (∃ e, Storage.ensure_segment seg = .error e) ↔ Storage.badSegment seg := by
  unfold Storage.ensure_segment Storage.badSegment
  split_ifs with h1 h2 h3 <;>
    simp_all [strIsEmpty_iff, Bool.or_eq_true, beq_iff_eq]
  all_goals tauto

theorem ensure_segment_ok (seg : String) (h : ¬ Storage.badSegment seg) :
    Storage.ensure_segment seg = .ok () := by
  unfold Storage.ensure_segment
  unfold Storage.badSegment at h
  push_neg at h
  split_ifs with h1 h2 h3 <;>
    simp_all [strIsEmpty_iff, Bool.or_eq_true, beq_iff_eq]

/-- Claim C7: resolve_path errors exactly when either segment is empty,
contains a separator character (slash or backslash), or is the dot or
dot-dot component; on all other inputs it returns
root/device_uuid/object_key. -/
theorem claim_C7 (root dev key : String) :
    ((∃ e, Storage.resolve_path root dev key = .error e) ↔
        (Storage.badSegment dev ∨ Storage.badSegment key)) ∧
    (¬ Storage.badSegment dev → ¬ Storage.badSegment key →
        Storage.resolve_path root dev key = .ok (root ++ "/" ++ dev ++ "/" ++ key)) := by
  constructor
  · constructor
    · intro ⟨e, he⟩
      unfold Storage.resolve_path at he
      by_cases hd : Storage.badSegment dev
      · exact Or.inl hd
      · rw [ensure_segment_ok dev hd] at he
        by_cases hk : Storage.badSegment key
        · exact Or.inr hk
        · rw [ensure_segment_ok key hk] at he
          exact absurd he (by simp)
    · intro h
      unfold Storage.resolve_path
      rcases h with hd | hk
      · obtain ⟨e, he⟩ := (ensure_segment_error_iff dev).mpr hd
        rw [he]
        exact ⟨e, rfl⟩
      · obtain ⟨e, he⟩ := (ensure_segment_error_iff key).mpr hk
        cases hdev : Storage.ensure_segment dev with
        | error e2 => exact ⟨e2, rfl⟩
        | ok u => cases u; rw [he]; exact ⟨e, rfl⟩
  · intro hd hk
    unfold Storage.resolve_path
    rw [ensure_segment_ok dev hd, ensure_segment_ok key hk]

/-- Witness for C7: a benign pair of segments resolves to the joined
path. -/
theorem claim_C7_witness :
    Storage.resolve_path "/root" "U1" "obj" = .ok ("/root" ++ "/" ++ "U1" ++ "/" ++ "obj") :=
  (claim_C7 "/root" "U1" "obj").2 (by decide) (by decide)

/-! C4 — the discovery upsert's two arms. -/

theorem upsert_any_iff (s : Store) (uuid : String) :
    s.any (fun r => r.uuid == some uuid) = true ↔ ∃ r ∈ s, r.uuid = some uuid := by
  rw [List.any_eq_true]
  simp [beq_iff_eq]

/-- Claim C4: for every (devnode, uuid, now), if a record with this
uuid exists (whatever its removed flag), upsert_device updates every
such record's devnode, clears removed and refreshes last_seen — and
changes nothing else, leaving other records alone; otherwise it appends
one new record with joined=0, mount_success=0 and mount_path absent. -/
theorem claim_C4 (s : Store) (devnode uuid : String) (ts : Int) :
    ((∃ r ∈ s, r.uuid = some uuid) →
      ∃ h2 : (DeviceRepo.upsert_device s devnode uuid ts).length = s.length,
        ∀ (i : Nat) (hi : i < s.length),
          (if (s.get ⟨i, hi⟩).uuid = some uuid
           then (DeviceRepo.upsert_device s devnode uuid ts).get ⟨i, h2 ▸ hi⟩ =
                  { s.get ⟨i, hi⟩ with devnode := devnode, removed := 0, last_seen := ts }
           else (DeviceRepo.upsert_device s devnode uuid ts).get ⟨i, h2 ▸ hi⟩ =
                  s.get ⟨i, hi⟩)) ∧
    ((¬ ∃ r ∈ s, r.uuid = some uuid) →
      ∃ n : Device, DeviceRepo.upsert_device s devnode uuid ts = s ++ [n] ∧
        n.devnode = devnode ∧ n.uuid = some uuid ∧ n.removed = 0 ∧ n.joined = 0 ∧
        n.mount_success = 0 ∧ n.mount_path = none ∧ n.last_seen = ts) := by
  constructor
  · intro hex
    have hany : s.any (fun r => r.uuid == some uuid) = true :=
      (upsert_any_iff s uuid).mpr hex
    unfold DeviceRepo.upsert_device
    rw [if_pos hany]
    refine ⟨List.length_map s (DeviceRepo.upsertHit devnode ts uuid), ?_⟩
    intro i hi
    have hget : ∀ hm : i < (s.map (DeviceRepo.upsertHit devnode ts uuid)).length,
        (s.map (DeviceRepo.upsertHit devnode ts uuid)).get ⟨i, hm⟩ =
          DeviceRepo.upsertHit devnode ts uuid (s.get ⟨i, hi⟩) := by
      intro hm
      simp [List.getElem_map]
    by_cases hu : (s.get ⟨i, hi⟩).uuid = some uuid
    · rw [if_pos hu, hget]
      unfold DeviceRepo.upsertHit
      rw [if_pos (by simp only [beq_iff_eq]; exact hu)]
    · rw [if_neg hu, hget]
      unfold DeviceRepo.upsertHit
      rw [if_neg (by simp only [beq_iff_eq]; exact hu)]
  · intro hnex
    have hany : s.any (fun r => r.uuid == some uuid) = false := by
      rw [← Bool.not_eq_true, upsert_any_iff]
      exact hnex
    unfold DeviceRepo.upsert_device
    rw [if_neg (by simp [hany])]
    exact ⟨DeviceRepo.freshRow s devnode uuid ts, rfl, rfl, rfl, rfl, rfl, rfl, rfl, rfl⟩

/-- Witness for C4: the update arm on a store holding the uuid, and the
insert arm on the empty store. -/
theorem claim_C4_witness :
    (∃ h2 : (DeviceRepo.upsert_device [rowJoined] "/dev/sdc" "U1" 9).length =
        ([rowJoined] : Store).length,
      ∀ (i : Nat) (hi : i < ([rowJoined] : Store).length),
        (if (([rowJoined] : Store).get ⟨i, hi⟩).uuid = some "U1"
         then (DeviceRepo.upsert_device [rowJoined] "/dev/sdc" "U1" 9).get ⟨i, h2 ▸ hi⟩ =
                { ([rowJoined] : Store).get ⟨i, hi⟩ with
                    devnode := "/dev/sdc", removed := 0, last_seen := 9 }
         else (DeviceRepo.upsert_device [rowJoined] "/dev/sdc" "U1" 9).get ⟨i, h2 ▸ hi⟩ =
                ([rowJoined] : Store).get ⟨i, hi⟩)) ∧
    (∃ n : Device, DeviceRepo.upsert_device [] "/dev/sdb" "U9" 3 = [] ++ [n] ∧
      n.devnode = "/dev/sdb" ∧ n.uuid = some "U9" ∧ n.removed = 0 ∧ n.joined = 0 ∧
      n.mount_success = 0 ∧ n.mount_path = none ∧ n.last_seen = 3) :=
  ⟨(claim_C4 [rowJoined] "/dev/sdc" "U1" 9).1
      ⟨rowJoined, List.mem_cons_self rowJoined [], by decide⟩,
   (claim_C4 [] "/dev/sdb" "U9" 3).2 (by simp)⟩

/-! C5 — idempotence of the discovery upsert. -/

theorem upsertHit_uuid (devnode : String) (ts : Int) (uuid : String) (r : Device) :
    (DeviceRepo.upsertHit devnode ts uuid r).uuid = r.uuid := by
  unfold DeviceRepo.upsertHit
  split <;> rfl

theorem upsertHit_idem (devnode : String) (ts : Int) (uuid : String) (r : Device) :
    DeviceRepo.upsertHit devnode ts uuid (DeviceRepo.upsertHit devnode ts uuid r) =
      DeviceRepo.upsertHit devnode ts uuid r := by
  unfold DeviceRepo.upsertHit
  by_cases h : r.uuid == some uuid
  · rw [if_pos h]
    simp_all
  · rw [if_neg h, if_neg h]

/-- Claim C5: upsert-on-discovery is idempotent — for every store and
every (devnode, uuid, now), applying upsert_device twice with identical
arguments yields exactly the store produced by applying it once. -/
theorem claim_C5 (s : Store) (devnode uuid : String) (ts : Int) :
    DeviceRepo.upsert_device (DeviceRepo.upsert_device s devnode uuid ts) devnode uuid ts =
      DeviceRepo.upsert_device s devnode uuid ts := by
  by_cases h : s.any (fun r => r.uuid == some uuid) = true
  · obtain ⟨r, hr, hru⟩ := (upsert_any_iff s uuid).mp h
    have h1 : DeviceRepo.upsert_device s devnode uuid ts =
        s.map (DeviceRepo.upsertHit devnode ts uuid) := by
      unfold DeviceRepo.upsert_device
      rw [if_pos h]
    have hany2 : (s.map (DeviceRepo.upsertHit devnode ts uuid)).any
        (fun r => r.uuid == some uuid) = true := by
      rw [upsert_any_iff]
      exact ⟨DeviceRepo.upsertHit devnode ts uuid r,
        List.mem_map_of_mem _ hr, by rw [upsertHit_uuid]; exact hru⟩
    rw [h1]
    unfold DeviceRepo.upsert_device
    rw [if_pos hany2, List.map_map]
    exact list_map_congr s _ _ (fun x _ => upsertHit_idem devnode ts uuid x)
  · have h1 : DeviceRepo.upsert_device s devnode uuid ts =
        s ++ [DeviceRepo.freshRow s devnode uuid ts] := by
      unfold DeviceRepo.upsert_device
      rw [if_neg h]
    have hnot : ∀ x ∈ s, ¬ (x.uuid == some uuid) = true := by
      intro x hx hxe
      exact h (List.any_eq_true.mpr ⟨x, hx, hxe⟩)
    have hany2 : ((s ++ [DeviceRepo.freshRow s devnode uuid ts]).any
        (fun r => r.uuid == some uuid)) = true := by
      rw [upsert_any_iff]
      exact ⟨DeviceRepo.freshRow s devnode uuid ts, by simp, rfl⟩
    rw [h1]
    unfold DeviceRepo.upsert_device
    rw [if_pos hany2, List.map_append]
    have hmap : s.map (DeviceRepo.upsertHit devnode ts uuid) = s := by
      apply list_map_eq_self
      intro x hx
      unfold DeviceRepo.upsertHit
      rw [if_neg (hnot x hx)]
    have hfresh : DeviceRepo.upsertHit devnode ts uuid
        (DeviceRepo.freshRow s devnode uuid ts) = DeviceRepo.freshRow s devnode uuid ts := by
      unfold DeviceRepo.upsertHit DeviceRepo.freshRow
      rw [if_pos (by simp)]
    rw [hmap]
    simp [hfresh]

/-! C9 — which mutations refresh last_seen. -/

/-- Claim C9 (amended): the discovery upsert and the removal mark stamp
last_seen with the operation's timestamp on every record they modify,
but update_mount_result — the reconciliation tick's recording of a
successful mount — leaves every record's last_seen unchanged, so
last_seen tracks only discovery and removal transitions. -/
theorem claim_C9 (s : Store) (devnode mp uuid dn un : String) (ts : Int) :
    ((DeviceRepo.update_mount_result s devnode mp uuid).map (·.last_seen) =
        s.map (·.last_seen)) ∧
    (∀ r2 ∈ DeviceRepo.mark_removed s dn ts,
        r2.last_seen = ts ∨ (r2 ∈ s ∧ r2.devnode ≠ dn)) ∧
    (∀ r2 ∈ DeviceRepo.upsert_device s dn un ts,
        r2.last_seen = ts ∨ (r2 ∈ s ∧ r2.uuid ≠ some un)) := by
  refine ⟨?_, ?_, ?_⟩
  · unfold DeviceRepo.update_mount_result
    rw [List.map_map]
    apply list_map_congr
    intro x _
    simp only [Function.comp]
    split <;> rfl
  · intro r2 hr2
    unfold DeviceRepo.mark_removed at hr2
    obtain ⟨r, hr, hreq⟩ := List.mem_map.mp hr2
    by_cases hd : (r.devnode == dn) = true
    · left
      rw [← hreq, if_pos hd]
    · right
      rw [← hreq, if_neg hd]
      exact ⟨hr, by simpa [beq_iff_eq] using hd⟩
  · intro r2 hr2
    unfold DeviceRepo.upsert_device at hr2
    by_cases h : s.any (fun r => r.uuid == some un) = true
    · rw [if_pos h] at hr2
      obtain ⟨r, hr, hreq⟩ := List.mem_map.mp hr2
      unfold DeviceRepo.upsertHit at hreq
      by_cases hu : (r.uuid == some un) = true
      · left
        rw [← hreq, if_pos hu]
      · right
        rw [← hreq, if_neg hu]
        exact ⟨hr, by simpa [beq_iff_eq] using hu⟩
    · rw [if_neg h] at hr2
      rcases List.mem_append.mp hr2 with hin | hnew
      · right
        refine ⟨hin, ?_⟩
        intro hc
        exact h (List.any_eq_true.mpr ⟨r2, hin, by simp [beq_iff_eq, hc]⟩)
      · left
        have : r2 = DeviceRepo.freshRow s dn un ts := by simpa using hnew
        rw [this]
        rfl

/-- Witness for C9: on a one-row store, recording a mount result keeps
last_seen, while removal and upsert both stamp it. -/
theorem claim_C9_witness :
    ((DeviceRepo.update_mount_result [rowJoined] "/dev/sdb" "/root/U1" "U1").map
        (·.last_seen) = ([rowJoined] : Store).map (·.last_seen)) ∧
    (rowJoined.last_seen = 5) ∧
    ({ rowJoined with removed := 1, mount_success := 0, last_seen := 11 }.last_seen = 11 ∨
      ({ rowJoined with removed := 1, mount_success := 0, last_seen := 11 } ∈
          ([rowJoined] : Store) ∧
        ({ rowJoined with removed := 1, mount_success := 0, last_seen := 11 } : Device).devnode
          ≠ "/dev/sdb")) ∧
    ({ rowJoined with devnode := "/dev/sdc", removed := 0, last_seen := 12 }.last_seen = 12 ∨
      ({ rowJoined with devnode := "/dev/sdc", removed := 0, last_seen := 12 } ∈
          ([rowJoined] : Store) ∧
        ({ rowJoined with devnode := "/dev/sdc", removed := 0, last_seen := 12 } : Device).uuid
          ≠ some "U1")) :=
  ⟨(claim_C9 [rowJoined] "/dev/sdb" "/root/U1" "U1" "/dev/sdb" "U1" 11).1,
   rfl,
   (claim_C9 [rowJoined] "/dev/sdb" "/root/U1" "U1" "/dev/sdb" "U1" 11).2.1
      { rowJoined with removed := 1, mount_success := 0, last_seen := 11 } (by decide),
   (claim_C9 [rowJoined] "/dev/sdb" "/root/U1" "U1" "/dev/sdc" "U1" 12).2.2
      { rowJoined with devnode := "/dev/sdc", removed := 0, last_seen := 12 } (by decide)⟩

/-- Counterexample for C9 as stated: update_mount_result changes the
record's state (mount_success goes from 0 to 1, mount_path is set) yet
last_seen stays at its old value 5 — the operation does not even take a
timestamp, so last_seen cannot equal the time of this transition. -/
theorem claim_C9_counterexample :
    (DeviceRepo.update_mount_result [rowJoined] "/dev/sdb" "/root/U1" "U1").map
        (·.mount_success) = [1] ∧
    rowJoined.mount_success = 0 ∧
    (DeviceRepo.update_mount_result [rowJoined] "/dev/sdb" "/root/U1" "U1").map
        (·.last_seen) = [5] ∧
    rowJoined.last_seen = 5 := by
  refine ⟨by decide, rfl, by decide, rfl⟩

/-! C2 — the device selection cache. -/

theorem get_or_fetch_refreshes (cache : Server.CacheState) (ttl now nanos : Nat) (s : Store)
    (h : cache = none ∨ ∃ uuids ts0, cache = some (uuids, ts0) ∧ ttl ≤ now - ts0) :
    Server.get_or_fetch cache ttl now nanos s = Server.refreshPick now nanos s := by
  rcases h with h | ⟨uuids, ts0, h, hle⟩
  · subst h
    rfl
  · subst h
    simp only [Server.get_or_fetch]
    rw [if_neg (Nat.not_lt.mpr hle)]

/-- Claim C2 (amended): whenever the cache holds no snapshot at all, or
the snapshot is older than the TTL, get_or_fetch synchronously fetches
the joined+active rows, filters them to mount_success=1, stores the
result as the new snapshot, and then either picks from it or — when the
refreshed candidate set is empty — fails with the retryable
service-unavailable "no active device uuid" error rather than returning
a default. (A fresh snapshot whose entry list is empty is served from
cache: it yields the same error without refreshing.) -/
theorem claim_C2 (cache : Server.CacheState) (ttl now nanos : Nat) (s : Store)
    (h : cache = none ∨ ∃ uuids ts0, cache = some (uuids, ts0) ∧ ttl ≤ now - ts0) :
    (Server.get_or_fetch cache ttl now nanos s).1 =
        some (Server.refreshCandidates s, now) ∧
    (Server.refreshCandidates s = [] →
      (Server.get_or_fetch cache ttl now nanos s).2 = .error "no active device uuid") ∧
    (Server.refreshCandidates s ≠ [] →
      (Server.get_or_fetch cache ttl now nanos s).2 =
        .ok (Server.pickUuid (Server.refreshCandidates s) nanos)) := by
  rw [get_or_fetch_refreshes cache ttl now nanos s h]
  unfold Server.refreshPick
  by_cases hc : Server.refreshCandidates s = []
  · rw [if_pos (by rw [hc]; rfl)]
    exact ⟨rfl, fun _ => rfl, fun hne => absurd hc hne⟩
  · rw [if_neg (by rw [List.isEmpty_iff]; exact hc)]
    exact ⟨rfl, fun he => absurd he hc, fun _ => rfl⟩

/-- Witness for C2: an absent snapshot with one mounted candidate in
the store refreshes and selects it. -/
theorem claim_C2_witness :
    (Server.get_or_fetch none 30 20 0 [rowMounted]).1 =
        some (Server.refreshCandidates [rowMounted], 20) ∧
    (Server.get_or_fetch none 30 20 0 [rowMounted]).2 =
        .ok (Server.pickUuid (Server.refreshCandidates [rowMounted]) 0) :=
  ⟨(claim_C2 none 30 20 0 [rowMounted] (Or.inl rfl)).1,
   (claim_C2 none 30 20 0 [rowMounted] (Or.inl rfl)).2.2 (by decide)⟩

/-- Counterexample for C2 as stated: with a fresh snapshot whose entry
list is empty (age 10 < TTL 30) and a store that does hold a usable
mounted device, get_or_fetch returns the error directly and does not
refresh — the snapshot stays the stale empty one instead of becoming
the refreshed candidate list. -/
theorem claim_C2_counterexample :
    (Server.get_or_fetch (some ([], 10)) 30 20 0 [rowMounted]).1 = some ([], 10) ∧
    (Server.get_or_fetch (some ([], 10)) 30 20 0 [rowMounted]).2 =
        .error "no active device uuid" ∧
    Server.refreshCandidates [rowMounted] = ["U1"] ∧
    (Server.get_or_fetch (some ([], 10)) 30 20 0 [rowMounted]).1 ≠
        some (Server.refreshCandidates [rowMounted], 20) := by
  refine ⟨rfl, rfl, by decide, by decide⟩

/-! C8 — joined survives a remove then re-add cycle. -/

/-- Claim C8: for every record holding this uuid, running mark_removed
(with any devnode and timestamp) and then upsert_device with the same
uuid leaves that record's joined flag exactly as it was and ends with
removed=0; neither operation modifies joined. -/
theorem claim_C8 (s : Store) (i : Nat) (hi : i < s.length) (d d2 u : String)
    (ts1 ts2 : Int) (hu : (s.get ⟨i, hi⟩).uuid = some u) :
    ∃ (h1 : i < (DeviceRepo.mark_removed s d ts1).length)
      (h2 : i < (DeviceRepo.upsert_device (DeviceRepo.mark_removed s d ts1) d2 u ts2).length),
      ((DeviceRepo.mark_removed s d ts1).get ⟨i, h1⟩).joined = (s.get ⟨i, hi⟩).joined ∧
      ((DeviceRepo.upsert_device (DeviceRepo.mark_removed s d ts1) d2 u ts2).get
          ⟨i, h2⟩).joined = (s.get ⟨i, hi⟩).joined ∧
      ((DeviceRepo.upsert_device (DeviceRepo.mark_removed s d ts1) d2 u ts2).get
          ⟨i, h2⟩).removed = 0 := by
  set f : Device → Device := fun r =>
    if r.devnode == d then { r with removed := 1, mount_success := 0, last_seen := ts1 }
    else r with hf
  have hmr : DeviceRepo.mark_removed s d ts1 = s.map f := rfl
  have h1 : i < (DeviceRepo.mark_removed s d ts1).length := by
    rw [hmr, List.length_map]
    exact hi
  have hget1 : (DeviceRepo.mark_removed s d ts1).get ⟨i, h1⟩ = f (s.get ⟨i, hi⟩) := by
    simp [hmr, List.getElem_map]
  have hfj : ∀ r : Device, (f r).joined = r.joined := by
    intro r
    rw [hf]
    dsimp only
    split <;> rfl
  have hfu : ∀ r : Device, (f r).uuid = r.uuid := by
    intro r
    rw [hf]
    dsimp only
    split <;> rfl
  have hany : (DeviceRepo.mark_removed s d ts1).any (fun r => r.uuid == some u) = true := by
    rw [upsert_any_iff]
    refine ⟨(DeviceRepo.mark_removed s d ts1).get ⟨i, h1⟩, List.get_mem _ _ h1, ?_⟩
    rw [hget1, hfu]
    exact hu
  have hcomb : DeviceRepo.upsert_device (DeviceRepo.mark_removed s d ts1) d2 u ts2 =
      s.map (fun r => DeviceRepo.upsertHit d2 ts2 u (f r)) := by
    unfold DeviceRepo.upsert_device
    rw [if_pos hany, hmr, List.map_map]
    rfl
  have h2 : i < (DeviceRepo.upsert_device (DeviceRepo.mark_removed s d ts1) d2 u ts2).length := by
    rw [hcomb, List.length_map]
    exact hi
  have hget2 : (DeviceRepo.upsert_device (DeviceRepo.mark_removed s d ts1) d2 u ts2).get
      ⟨i, h2⟩ = DeviceRepo.upsertHit d2 ts2 u (f (s.get ⟨i, hi⟩)) := by
    rw [list_get_congr hcomb i h2]
    simp [List.getElem_map]
  have hhit : DeviceRepo.upsertHit d2 ts2 u (f (s.get ⟨i, hi⟩)) =
      { f (s.get ⟨i, hi⟩) with devnode := d2, removed := 0, last_seen := ts2 } := by
    unfold DeviceRepo.upsertHit
    rw [if_pos (by rw [hfu]; simp only [beq_iff_eq]; exact hu)]
  refine ⟨h1, h2, ?_, ?_, ?_⟩
  · rw [hget1, hfj]
  · rw [hget2, hhit]
    show (f (s.get ⟨i, hi⟩)).joined = (s.get ⟨i, hi⟩).joined
    exact hfj _
  · rw [hget2, hhit]

/-! C1 — which rows the reconciliation passes mount-attempt. -/

theorem mem_list_joined_active (s : Store) (row : DeviceRepo.DeviceMountRow)
    (h : row ∈ DeviceRepo.list_joined_active s) :
    ∃ r ∈ s, r.devnode = row.devnode ∧ r.joined = 1 ∧ r.removed = 0 := by
  unfold DeviceRepo.list_joined_active at h
  obtain ⟨r, hr, hreq⟩ := List.mem_map.mp h
  obtain ⟨hrs, hp⟩ := List.mem_filter.mp hr
  simp only [Bool.and_eq_true, beq_iff_eq] at hp
  refine ⟨r, hrs, ?_, hp.2, hp.1⟩
  rw [← hreq]

theorem mem_list_active (s : Store) (row : DeviceRepo.DeviceMountRow)
    (h : row ∈ DevMounter.list_active s) :
    ∃ r ∈ s, r.devnode = row.devnode ∧ r.removed = 0 := by
  unfold DevMounter.list_active at h
  obtain ⟨r, hr, hreq⟩ := List.mem_map.mp h
  obtain ⟨hrs, hp⟩ := List.mem_filter.mp hr
  refine ⟨r, hrs, ?_, beq_iff_eq.mp hp⟩
  rw [← hreq]

theorem mounter_processRow_attempts (env : Env) (root : String)
    (acc : Store × List (String × String)) (row : DeviceRepo.DeviceMountRow)
    (x : String × String) (h : x ∈ (Mounter.processRow env root acc row).2) :
    x ∈ acc.2 ∨ x.1 = row.devnode := by
  revert h
  cases hmu : row.uuid with
  | none =>
    simp only [Mounter.processRow, hmu]
    exact Or.inl
  | some u =>
    simp only [Mounter.processRow, hmu]
    split_ifs <;> intro h
    · exact Or.inl h
    · exact Or.inl h
    · exact Or.inl h
    · rcases List.mem_append.mp h with h2 | h2
      · exact Or.inl h2
      · right
        rw [List.mem_singleton.mp h2]
    · rcases List.mem_append.mp h with h2 | h2
      · exact Or.inl h2
      · right
        rw [List.mem_singleton.mp h2]

theorem devmounter_processRow_attempts (env : Env) (root : String)
    (acc : Store × List (String × String)) (row : DeviceRepo.DeviceMountRow)
    (x : String × String) (h : x ∈ (DevMounter.processRow env root acc row).2) :
    x ∈ acc.2 ∨ x.1 = row.devnode := by
  revert h
  simp only [DevMounter.processRow]
  split_ifs <;> intro h
  · exact Or.inl h
  · exact Or.inl h
  · rcases List.mem_append.mp h with h2 | h2
    · exact Or.inl h2
    · right
      rw [List.mem_singleton.mp h2]
  · rcases List.mem_append.mp h with h2 | h2
    · exact Or.inl h2
    · right
      rw [List.mem_singleton.mp h2]

theorem foldl_attempts_from_rows
    (step : Store × List (String × String) → DeviceRepo.DeviceMountRow →
        Store × List (String × String))
    (hstep : ∀ acc row x, x ∈ (step acc row).2 → x ∈ acc.2 ∨ x.1 = row.devnode) :
    ∀ (rows : List DeviceRepo.DeviceMountRow) (acc : Store × List (String × String))
      (x : String × String), x ∈ (rows.foldl step acc).2 →
        x ∈ acc.2 ∨ ∃ row ∈ rows, x.1 = row.devnode := by
  intro rows
  induction rows with
  | nil => exact fun acc x h => Or.inl h
  | cons r t ih =>
    intro acc x h
    rcases ih (step acc r) x h with h2 | ⟨row, hrow, hx⟩
    · rcases hstep acc r x h2 with h3 | h3
      · exact Or.inl h3
      · exact Or.inr ⟨r, List.mem_cons_self r t, h3⟩
    · exact Or.inr ⟨row, List.mem_cons_of_mem r hrow, hx⟩

/-- Claim C1 (amended): the library Mounter's reconciliation pass
(`Mounter::process_pending`) only ever invokes the mount operation on
devnodes of store records with joined=1 and removed=0 — the admission
gate holds there for every store content and environment. The legacy
dev-mounter binary's reconciliation, by contrast, only guarantees
removed=0 for the records it mount-attempts: it does not consult
joined. -/
theorem claim_C1 :
    (∀ (env : Env) (root : String) (s : Store) (x : String × String),
      x ∈ (Mounter.process_pending env root s).2 →
        ∃ r ∈ s, r.devnode = x.1 ∧ r.joined = 1 ∧ r.removed = 0) ∧
    (∀ (env : Env) (root : String) (s : Store) (x : String × String),
      x ∈ (DevMounter.process_pending env root s).2 →
        ∃ r ∈ s, r.devnode = x.1 ∧ r.removed = 0) := by
  constructor
  · intro env root s x h
    rcases foldl_attempts_from_rows (Mounter.processRow env root)
        (mounter_processRow_attempts env root) (DeviceRepo.list_joined_active s)
        (s, []) x h with h2 | ⟨row, hrow, hx⟩
    · exact absurd h2 (List.not_mem_nil x)
    · obtain ⟨r, hr, hd, hj, hrm⟩ := mem_list_joined_active s row hrow
      exact ⟨r, hr, by rw [hd, hx], hj, hrm⟩
  · intro env root s x h
    rcases foldl_attempts_from_rows (DevMounter.processRow env root)
        (devmounter_processRow_attempts env root) (DevMounter.list_active s)
        (s, []) x h with h2 | ⟨row, hrow, hx⟩
    · exact absurd h2 (List.not_mem_nil x)
    · obtain ⟨r, hr, hd, hrm⟩ := mem_list_active s row hrow
      exact ⟨r, hr, by rw [hd, hx], hrm⟩

/-- Witness for C1: a mount attempt recorded by each pass is traced
back to a qualifying store record. -/
theorem claim_C1_witness :
    (∃ r ∈ ([rowJoined] : Store),
      r.devnode = (("/dev/sdb", "/root" ++ "/" ++ "U1") : String × String).1 ∧
      r.joined = 1 ∧ r.removed = 0) ∧
    (∃ r ∈ ([rowUnjoined] : Store),
      r.devnode = (("/dev/sdb", "/root" ++ "/" ++ "U1") : String × String).1 ∧
      r.removed = 0) :=
  ⟨claim_C1.1 envNoOs "/root" [rowJoined] ("/dev/sdb", "/root" ++ "/" ++ "U1") (by decide),
   claim_C1.2 envNoOs "/root" [rowUnjoined] ("/dev/sdb", "/root" ++ "/" ++ "U1") (by decide)⟩

/-- Counterexample for C1 as stated: dev-mounter's reconciliation
invokes the mount operation on /dev/sdb although the store's only
record has joined=0 — the claim that no reconciliation pass ever
mount-attempts a joined=false record is false for that binary. -/
theorem claim_C1_counterexample :
    ("/dev/sdb", "/root" ++ "/" ++ "U1") ∈
        (DevMounter.process_pending envNoOs "/root" [rowUnjoined]).2 ∧
    rowUnjoined.joined = 0 ∧
    ([rowUnjoined] : Store).filter (fun r => r.joined == 1) = [] := by
  refine ⟨by decide, rfl, by decide⟩

/-! C3 — discovery never records a row without a uuid (library path). -/

theorem fetch_uuid_ne_empty (env : Env) (d u : String)
    (h : fetch_uuid env d = some u) : u ≠ "" := by
  unfold fetch_uuid at h
  cases ho : env.blkid_uuid d with
  | none => rw [ho] at h; exact absurd h (by simp)
  | some out =>
    rw [ho] at h
    dsimp only at h
    split_ifs at h with h1 h2
    · intro hc
      have heq : out.stdout.trim = u := Option.some_inj.mp h
      rw [heq, (strIsEmpty_iff u).mpr hc] at h2
      simp at h2

/-- Claim C3 (amended): in the library mounter, an add event whose uuid
probe fails leaves the store untouched, and every record present after
the handler either keeps a uuid that some pre-existing record already
had or carries a non-empty resolved uuid — so this path never creates a
record with an absent uuid. (The legacy dev-mounter binary violates the
original claim: its add handler inserts devnode-keyed rows even when
the probe fails, with uuid NULL.) -/
theorem claim_C3 (env : Env) (s : Store) (devnode : String) (ts : Int) :
    (fetch_uuid env devnode = none → Mounter.upsert_device env s devnode ts = s) ∧
    (∀ r2 ∈ Mounter.upsert_device env s devnode ts,
      (∃ r ∈ s, r2.uuid = r.uuid) ∨ ∃ u2, r2.uuid = some u2 ∧ u2 ≠ "") := by
  constructor
  · intro h
    unfold Mounter.upsert_device
    rw [h]
  · intro r2 hr2
    unfold Mounter.upsert_device at hr2
    cases hf : fetch_uuid env devnode with
    | none =>
      rw [hf] at hr2
      exact Or.inl ⟨r2, hr2, rfl⟩
    | some u =>
      have hne : u ≠ "" := fetch_uuid_ne_empty env devnode u hf
      rw [hf] at hr2
      dsimp only at hr2
      unfold DeviceRepo.upsert_device at hr2
      by_cases hany : s.any (fun r => r.uuid == some u) = true
      · rw [if_pos hany] at hr2
        obtain ⟨r, hr, hreq⟩ := List.mem_map.mp hr2
        exact Or.inl ⟨r, hr, by rw [← hreq, upsertHit_uuid]⟩
      · rw [if_neg hany] at hr2
        rcases List.mem_append.mp hr2 with h2 | h2
        · exact Or.inl ⟨r2, h2, rfl⟩
        · right
          refine ⟨u, ?_, hne⟩
          rw [List.mem_singleton.mp h2]
          rfl

/-- Witness for C3: with a failing probe the add handler is the
identity on the store, and each surviving record's uuid is accounted
for. -/
theorem claim_C3_witness :
    Mounter.upsert_device envNoOs [rowJoined] "/dev/sdb" 7 = [rowJoined] ∧
    ((∃ r ∈ ([rowJoined] : Store), rowJoined.uuid = r.uuid) ∨
      ∃ u2, rowJoined.uuid = some u2 ∧ u2 ≠ "") :=
  ⟨(claim_C3 envNoOs [rowJoined] "/dev/sdb" 7).1 rfl,
   (claim_C3 envNoOs [rowJoined] "/dev/sdb" 7).2 rowJoined (by decide)⟩

/-- Counterexample for C3 as stated: dev-mounter's add handler, with
the uuid probe failing, still touches the store — it inserts a row —
and the inserted row's uuid is absent. -/
theorem claim_C3_counterexample :
    fetch_uuid envNoOs "/dev/sdb" = none ∧
    DevMounter.upsert_add envNoOs [] "/dev/sdb" 7 =
      [{ id := 1, devnode := "/dev/sdb", uuid := none, removed := 0, joined := 0,
         mount_success := 0, mount_path := none, last_seen := 7 }] ∧
    DevMounter.upsert_add envNoOs [] "/dev/sdb" 7 ≠ [] := by
  refine ⟨rfl, by decide, by decide⟩

/-- Witness for C8: the joined row survives a remove of /dev/sdb and a
re-add under the new devnode /dev/sdc with joined intact and removed
cleared. -/
theorem claim_C8_witness :
    ∃ (h1 : 0 < (DeviceRepo.mark_removed [rowJoined] "/dev/sdb" 11).length)
      (h2 : 0 < (DeviceRepo.upsert_device
          (DeviceRepo.mark_removed [rowJoined] "/dev/sdb" 11) "/dev/sdc" "U1" 12).length),
      ((DeviceRepo.mark_removed [rowJoined] "/dev/sdb" 11).get ⟨0, h1⟩).joined =
          (([rowJoined] : Store).get ⟨0, by decide⟩).joined ∧
      ((DeviceRepo.upsert_device (DeviceRepo.mark_removed [rowJoined] "/dev/sdb" 11)
          "/dev/sdc" "U1" 12).get ⟨0, h2⟩).joined =
          (([rowJoined] : Store).get ⟨0, by decide⟩).joined ∧
      ((DeviceRepo.upsert_device (DeviceRepo.mark_removed [rowJoined] "/dev/sdb" 11)
          "/dev/sdc" "U1" 12).get ⟨0, h2⟩).removed = 0 :=
  claim_C8 [rowJoined] 0 (by decide) "/dev/sdb" "/dev/sdc" "U1" 11 12 rfl

/-! C6 — atomic stream write via temp file and rename. -/

theorem find_filter_ne (l : List (String × List Nat)) (p q : String) (h : ¬ q = p) :
    (l.filter (fun e => !(e.1 == p))).find? (fun e => e.1 == q) =
      l.find? (fun e => e.1 == q) := by
  induction l with
  | nil => rfl
  | cons e t ih =>
    rw [List.filter_cons]
    by_cases he : e.1 = p
    · rw [if_neg (by simp [he])]
      rw [List.find?_cons_of_neg _ (by
        simp only [beq_iff_eq]
        intro hc
        apply h
        rw [← hc]
        exact he)]
      exact ih
    · rw [if_pos (by simp [he])]
      by_cases hq : e.1 = q
      · rw [List.find?_cons_of_pos _ (by simp [hq]),
          List.find?_cons_of_pos _ (by simp [hq])]
      · rw [List.find?_cons_of_neg _ (by simp [hq]),
          List.find?_cons_of_neg _ (by simp [hq])]
        exact ih

theorem FS_look_write_self (fs : Storage.FS) (p : String) (c : List Nat) :
    (fs.write p c).look p = some c := by
  unfold Storage.FS.write Storage.FS.look
  rw [List.find?_cons_of_pos _ (by simp)]
  rfl

theorem FS_look_write_ne (fs : Storage.FS) (p q : String) (c : List Nat) (h : ¬ q = p) :
    (fs.write p c).look q = fs.look q := by
  unfold Storage.FS.write Storage.FS.look
  rw [List.find?_cons_of_neg _ (by
    simp only [beq_iff_eq]
    intro hc
    apply h
    rw [hc])]
  rw [find_filter_ne fs.files p q h]

theorem FS_look_mkdir (fs : Storage.FS) (d p : String) :
    (fs.mkdir d).look p = fs.look p := rfl

theorem FS_look_appendTo_ne (fs : Storage.FS) (p q : String) (c : List Nat)
    (h : ¬ q = p) : (fs.appendTo p c).look q = fs.look q := by
  unfold Storage.FS.appendTo
  cases fs.look p <;> exact FS_look_write_ne fs p q _ h

theorem FS_look_appendTo_self (fs : Storage.FS) (p : String) (c old : List Nat)
    (h : fs.look p = some old) : (fs.appendTo p c).look p = some (old ++ c) := by
  unfold Storage.FS.appendTo
  rw [h]
  exact FS_look_write_self fs p (old ++ c)

theorem FS_look_rename_dst (fs : Storage.FS) (src dst : String) (c : List Nat)
    (h : fs.look src = some c) : (fs.rename src dst).look dst = some c := by
  unfold Storage.FS.rename
  rw [h]
  exact FS_look_write_self _ dst c

theorem FS_dirs_appendTo (fs : Storage.FS) (p : String) (c : List Nat) :
    (fs.appendTo p c).dirs = fs.dirs := by
  unfold Storage.FS.appendTo
  cases fs.look p <;> rfl

theorem FS_dirs_rename (fs : Storage.FS) (a b : String) :
    (fs.rename a b).dirs = fs.dirs := by
  unfold Storage.FS.rename
  cases fs.look a <;> rfl

theorem scanl_invariant {α β : Type} (f : β → α → β) (P : β → Prop)
    (hstep : ∀ b a, P b → P (f b a)) :
    ∀ (l : List α) (b : β), P b → ∀ x ∈ List.scanl f b l, P x := by
  intro l
  induction l with
  | nil =>
    intro b hb x hx
    rw [List.scanl_nil] at hx
    rw [List.mem_singleton.mp hx]
    exact hb
  | cons a t ih =>
    intro b hb x hx
    rw [List.scanl_cons] at hx
    rcases List.mem_append.mp hx with h1 | h2
    · rw [List.mem_singleton.mp h1]
      exact hb
    · exact ih (f b a) (hstep b a hb) x h2

theorem scanl_ne_nil {α β : Type} (f : β → α → β) (b : β) (l : List α) :
    List.scanl f b l ≠ [] := by
  cases l with
  | nil => rw [List.scanl_nil]; simp
  | cons a t => rw [List.scanl_cons]; simp

theorem scanl_appendTo_last (tmp : String) :
    ∀ (chunks : List (List Nat)) (f : Storage.FS) (old : List Nat) (d : Storage.FS),
      f.look tmp = some old →
      ((List.scanl (fun g c => Storage.FS.appendTo g tmp c) f chunks).getLastD d).look tmp =
        some (old ++ chunks.flatten) := by
  intro chunks
  induction chunks with
  | nil =>
    intro f old d h
    rw [List.scanl_nil]
    simpa using h
  | cons c cs ih =>
    intro f old d h
    rw [List.scanl_cons, List.singleton_append, List.getLastD_cons]
    rw [ih (f.appendTo tmp c) (old ++ c) f (FS_look_appendTo_self f tmp c old h)]
    rw [List.flatten_cons, List.append_assoc]

theorem writeStart_dirs (fs : Storage.FS) (parent tmp : String) :
    (Storage.writeStart fs parent tmp).dirs = parent :: fs.dirs := rfl

theorem writeStart_look_ne (fs : Storage.FS) (parent tmp q : String) (h : ¬ q = tmp) :
    (Storage.writeStart fs parent tmp).look q = fs.look q := by
  show ((fs.mkdir parent).write tmp []).look q = fs.look q
  rw [FS_look_write_ne _ _ _ _ h]
  exact FS_look_mkdir fs parent q

theorem writeStart_look_self (fs : Storage.FS) (parent tmp : String) :
    (Storage.writeStart fs parent tmp).look tmp = some [] := by
  show ((fs.mkdir parent).write tmp []).look tmp = some []
  exact FS_look_write_self _ tmp []

theorem writeTrace_ne_nil (fs : Storage.FS) (parent tmp : String)
    (chunks : List (List Nat)) : Storage.writeTrace fs parent tmp chunks ≠ [] := by
  unfold Storage.writeTrace
  exact scanl_ne_nil _ _ chunks

theorem writeTrace_invariant (P : Storage.FS → Prop) (fs : Storage.FS)
    (parent tmp : String) (chunks : List (List Nat))
    (hstep : ∀ b c, P b → P (b.appendTo tmp c))
    (hstart : P (Storage.writeStart fs parent tmp)) :
    ∀ st ∈ Storage.writeTrace fs parent tmp chunks, P st := by
  intro st hst
  unfold Storage.writeTrace at hst
  exact scanl_invariant _ P (fun b a hb => hstep b a hb) chunks _ hstart st hst

theorem writeTrace_last_look (fs : Storage.FS) (parent tmp : String)
    (chunks : List (List Nat)) (d : Storage.FS) :
    ((Storage.writeTrace fs parent tmp chunks).getLastD d).look tmp =
      some chunks.flatten := by
  unfold Storage.writeTrace
  rw [scanl_appendTo_last tmp chunks _ [] d (writeStart_look_self fs parent tmp)]
  rfl

theorem resolve_ok_path (root dev key p : String)
    (h : Storage.resolve_path root dev key = .ok p) :
    p = root ++ "/" ++ dev ++ "/" ++ key := by
  unfold Storage.resolve_path at h
  cases h1 : Storage.ensure_segment dev with
  | error e =>
    rw [h1] at h
    exact absurd h (by simp)
  | ok u =>
    cases u
    rw [h1] at h
    dsimp only at h
    cases h2 : Storage.ensure_segment key with
    | error e =>
      rw [h2] at h
      exact absurd h (by simp)
    | ok u2 =>
      cases u2
      rw [h2] at h
      dsimp only at h
      exact (Except.ok.inj h).symm

theorem tmp_ne_final (root dev key token : String) :
    ¬ (root ++ "/" ++ dev ++ "/" ++ key =
        (root ++ "/" ++ dev) ++ "/" ++ Storage.tmpName key token) := by
  intro hc
  have hlen := congrArg String.length hc
  unfold Storage.tmpName at hlen
  simp only [String.length_append] at hlen
  have h1 : (".").length = 1 := rfl
  have h2 : (".part").length = 5 := rfl
  rw [h1, h2] at hlen
  omega

/-- Claim C6: on any input whose segments resolve, write_stream records
the parent directory as created in every state it passes through,
streams into a temp file that lives beside the final path, and renames
it onto the final path at the very end — so in every intermediate state
the final path's content is exactly what it was before the call (a
reader sees the old content or nothing, never a partial prefix), the
final state holds exactly the concatenated stream, and the returned
byte count is exactly the total length of the stream. -/
theorem claim_C6 (fs : Storage.FS) (root dev key token : String)
    (chunks : List (List Nat)) (p : String)
    (h : Storage.resolve_path root dev key = .ok p) :
    ∃ states : List Storage.FS,
      Storage.write_stream fs root dev key token chunks =
        .ok (states, p, chunks.flatten.length) ∧
      states ≠ [] ∧
      (∀ st ∈ states, (root ++ "/" ++ dev) ∈ st.dirs) ∧
      (∀ st ∈ states.dropLast, st.look p = fs.look p) ∧
      (states.getLastD fs).look p = some chunks.flatten := by
  have hp : p = root ++ "/" ++ dev ++ "/" ++ key := resolve_ok_path root dev key p h
  have hne : ¬ p = (root ++ "/" ++ dev) ++ "/" ++ Storage.tmpName key token := by
    rw [hp]
    exact tmp_ne_final root dev key token
  refine ⟨Storage.writeTrace fs (root ++ "/" ++ dev)
      ((root ++ "/" ++ dev) ++ "/" ++ Storage.tmpName key token) chunks ++
      [((Storage.writeTrace fs (root ++ "/" ++ dev)
          ((root ++ "/" ++ dev) ++ "/" ++ Storage.tmpName key token) chunks).getLastD
          (Storage.writeStart fs (root ++ "/" ++ dev)
            ((root ++ "/" ++ dev) ++ "/" ++ Storage.tmpName key token))).rename
          ((root ++ "/" ++ dev) ++ "/" ++ Storage.tmpName key token) p],
    ?_, ?_, ?_, ?_, ?_⟩
  · unfold Storage.write_stream
    rw [h]
    dsimp only
    simp [List.length_flatten]
  · simp
  · intro st hst
    have hdir : ∀ st2 ∈ Storage.writeTrace fs (root ++ "/" ++ dev)
        ((root ++ "/" ++ dev) ++ "/" ++ Storage.tmpName key token) chunks,
        (root ++ "/" ++ dev) ∈ st2.dirs := by
      apply writeTrace_invariant
      · intro b c hb
        rw [FS_dirs_appendTo]
        exact hb
      · rw [writeStart_dirs]
        exact List.mem_cons_self _ _
    rcases List.mem_append.mp hst with h1 | h1
    · exact hdir st h1
    · rw [List.mem_singleton.mp h1, FS_dirs_rename]
      exact hdir _ (getLastD_mem_of_ne_nil _ _ (writeTrace_ne_nil _ _ _ _))
  · intro st hst
    rw [List.dropLast_concat] at hst
    refine writeTrace_invariant (fun b => b.look p = fs.look p) fs _ _ chunks
      ?_ ?_ st hst
    · intro b c hb
      rw [FS_look_appendTo_ne _ _ _ _ hne]
      exact hb
    · exact writeStart_look_ne fs _ _ p hne
  · rw [List.getLastD_concat]
    exact FS_look_rename_dst _ _ _ _ (writeTrace_last_look fs _ _ chunks _)

/-- Witness for C6: a two-chunk stream lands atomically at the final
path with byte count 3. -/
theorem claim_C6_witness :
    ∃ states : List Storage.FS,
      Storage.write_stream ⟨[], []⟩ "/root" "U1" "k" "tok" [[1, 2], [3]] =
        .ok (states, "/root/U1/k", ([[1, 2], [3]] : List (List Nat)).flatten.length) ∧
      states ≠ [] ∧
      (∀ st ∈ states, ("/root" ++ "/" ++ "U1") ∈ st.dirs) ∧
      (∀ st ∈ states.dropLast,
        st.look "/root/U1/k" = (⟨[], []⟩ : Storage.FS).look "/root/U1/k") ∧
      (states.getLastD ⟨[], []⟩).look "/root/U1/k" =
        some ([[1, 2], [3]] : List (List Nat)).flatten :=
  claim_C6 ⟨[], []⟩ "/root" "U1" "k" "tok" [[1, 2], [3]] "/root/U1/k" (by rfl)

end StoragePlus
